import Mathlib

/-!
Shallow embedding of the strategy-optimizer program `auto_strategy_optimizer.py`.

Prices, indicator values and scores are modelled as rationals (the Python code
uses float64; none of the properties below depends on rounding).  Pandas
columns are modelled as `List ℚ`; a pandas series that may contain a NaN
introduced by `.shift(1)` is modelled as `List (Option ℚ)` with `none` for NaN.
The vectorized signal expressions of `backtest_strategy` are modelled together
with the pandas/numpy evaluation semantics that makes them raise — the bitwise
`&` operator is not defined between float64 series — inside an `Except` monad
whose error corresponds to the raised Python exception; the surrounding
`try/except` of the source turns any error into a `None` return.

Data fetching, CSV logging and console printing are external collaborators and
are not part of the embedding: each embedded function takes the already fetched
(and forward/backward filled) bar data as an argument.
-/

/-- Arithmetic mean of a list of rationals (`np.mean` / pandas `.mean()`;
the empty list gives `0/0 = 0`, a case that never arises below because every
rolling window with `min_periods=1` is nonempty). -/
def mean (l : List ℚ) : ℚ := l.sum / (l.length : ℚ)

/-- pandas `.min()` on a list of values; `0` on the empty list (never hit). -/
def listMin : List ℚ → ℚ
  | [] => 0
  | x :: xs => xs.foldl min x

/-- pandas `.max()` on a list of values; `0` on the empty list (never hit). -/
def listMax : List ℚ → ℚ
  | [] => 0
  | x :: xs => xs.foldl max x

/-- The trailing window that a rolling computation with `min_periods=1` sees at
index `i`: the last `min (i+1) w` elements among the first `i+1`. -/
def window (w : ℕ) (l : List ℚ) (i : ℕ) : List ℚ := (l.take (i + 1)).drop (i + 1 - w)

/-- Embedding of `Series.rolling(window=w, min_periods=1).mean()`. -/
def rollingMean (w : ℕ) (l : List ℚ) : List ℚ :=
  (List.range l.length).map fun i => mean (window w l i)

/-- Embedding of `Series.rolling(window=w, min_periods=1).min()`. -/
def rollingMin (w : ℕ) (l : List ℚ) : List ℚ :=
  (List.range l.length).map fun i => listMin (window w l i)

/-- Embedding of `Series.rolling(window=w, min_periods=1).max()`. -/
def rollingMax (w : ℕ) (l : List ℚ) : List ℚ :=
  (List.range l.length).map fun i => listMax (window w l i)

/-- The last `k` elements of a column (`.iloc[-k:]`; the whole list when it is
shorter than `k`). -/
def lastN (k : ℕ) (l : List ℚ) : List ℚ := l.drop (l.length - k)

/-- One daily bar of the front-adjusted history used by `backtest_strategy`
(`日期`, `收盘`, `最低`, `最高`).  Dates are modelled as natural numbers. -/
structure Bar where
  date : ℕ
  close : ℚ
  low : ℚ
  high : ℚ
  deriving DecidableEq

/-- A strategy parameter combination, the keys of `PARAM_SEARCH_CONFIG`. -/
structure StrategyParams where
  ma_short : ℕ
  ma_long : ℕ
  support_resist_days : ℕ
  buy_margin : ℚ
  sell_margin : ℚ
  deriving DecidableEq

/-- StrategyParams invariant stated by the specification: positive windows,
`ma_short < ma_long`, margins in (0,1). -/
def validParams (p : StrategyParams) : Prop :=
  0 < p.ma_short ∧ p.ma_short < p.ma_long ∧ 0 < p.support_resist_days ∧
    0 < p.buy_margin ∧ p.buy_margin < 1 ∧ 0 < p.sell_margin ∧ p.sell_margin < 1

instance (p : StrategyParams) : Decidable (validParams p) := by
  unfold validParams; infer_instance

/-- Constant `BACKTEST_CONFIG["history_days"]`. -/
def historyDays : ℕ := 180

/-- Constant `BACKTEST_CONFIG["transaction_cost"] = 0.0015`. -/
def transactionCost : ℚ := 15 / 10000

/-- Grid `PARAM_SEARCH_CONFIG["MA_SHORT"]`. -/
def gridMaShort : List ℕ := [4, 5, 6]

/-- Grid `PARAM_SEARCH_CONFIG["MA_LONG"]`. -/
def gridMaLong : List ℕ := [18, 20, 22]

/-- Grid `PARAM_SEARCH_CONFIG["SUPPORT_RESIST_DAYS"]`. -/
def gridSupportDays : List ℕ := [4, 5, 6]

/-- Grid `PARAM_SEARCH_CONFIG["BUY_MARGIN"] = [0.008, 0.01, 0.012]`. -/
def gridBuyMargin : List ℚ := [8/1000, 1/100, 12/1000]

/-- Grid `PARAM_SEARCH_CONFIG["SELL_MARGIN"] = [0.008, 0.01, 0.012]`. -/
def gridSellMargin : List ℚ := [8/1000, 1/100, 12/1000]

/-- The exceptions the pandas expressions of `backtest_strategy` raise:
`TypeError` from `&` between float64 series, `ValueError` from `bool(series)`
inside a chained comparison. -/
inductive PdError
  | typeError
  | valueError
  deriving DecidableEq

/-- A pandas series cell; `none` is the NaN introduced by `.shift(1)`. -/
abbrev PCell := Option ℚ

/-- A pandas float64 series possibly holding NaNs. -/
abbrev PSeries := List PCell

/-- View a NaN-free column as a series. -/
def pser (l : List ℚ) : PSeries := l.map some

/-- Embedding of `Series.shift(1)`: NaN in front, the last element dropped. -/
def shift1 (l : List ℚ) : PSeries := none :: (l.dropLast.map some)

/-- Bitwise `&` between two float64 series: numpy defines no `bitwise_and` for
float64, so pandas raises `TypeError` regardless of the operand values. -/
def seriesAndF (_a _b : PSeries) : Except PdError PSeries := .error .typeError

/-- Coercion `bool(series)`, required by the `and` that a chained comparison inserts:
pandas raises `ValueError` (ambiguous truth value) for any series. -/
def seriesBool (_l : List Bool) : Except PdError Bool := .error .valueError

/-- Elementwise `<` with NaN comparing false, as in pandas. -/
def cellLt : PCell → PCell → Bool
  | some a, some b => decide (a < b)
  | _, _ => false

/-- Elementwise `≤` with NaN comparing false, as in pandas. -/
def cellLe : PCell → PCell → Bool
  | some a, some b => decide (a ≤ b)
  | _, _ => false

def seriesLt (a b : PSeries) : List Bool := List.zipWith cellLt a b

def seriesGt (a b : PSeries) : List Bool := List.zipWith (fun x y => cellLt y x) a b

def seriesLe (a b : PSeries) : List Bool := List.zipWith cellLe a b

/-- Product `series * c` for a scalar `c`. -/
def smulSeries (l : List ℚ) (c : ℚ) : List ℚ := l.map fun x => x * c

/-- Embedding of lines 260–265 of `auto_strategy_optimizer.py`:

```
df["buy_signal"] = (
    df["ma_short"].shift(1) < df["ma_long"].shift(1) &
    df["ma_short"] > df["ma_long"] &
    df["收盘"] <= df["support"] * (1 + params["BUY_MARGIN"]) &
    df["收盘"] > df["support"] * 0.95
)
```

Python parses `&` tighter than the comparison operators, so the expression is
the chained comparison
`maS.shift(1) < (maL.shift(1) & maS) > (maL & close) <= (support*(1+bm) & close) > support*0.95`.
Its operands are evaluated left to right, so the first operation performed is
`maL.shift(1) & maS`, which raises `TypeError` (bitwise `&` of float series);
evaluation never proceeds past that point.  The remaining steps are written out
for completeness — had `&` been defined, the chained comparison would next have
asked for `bool` of a boolean series, raising `ValueError` — but they are
unreachable. -/
def buySignalSeries (maS maL close sup : List ℚ) (bm : ℚ) :
    Except PdError (List Bool) := do
  let a1 := shift1 maS
  let a2 ← seriesAndF (shift1 maL) (pser maS)
  let a3 ← seriesAndF (pser maL) (pser close)
  let a4 ← seriesAndF (pser (smulSeries sup (1 + bm))) (pser close)
  let a5 := pser (smulSeries sup (95/100))
  let r1 ← seriesBool (seriesLt a1 a2)
  let r2 ← seriesBool (seriesGt a2 a3)
  let r3 ← seriesBool (seriesLe a3 a4)
  let r4 ← seriesBool (seriesGt a4 a5)
  pure (List.replicate close.length (r1 && r2 && r3 && r4))

/-- Embedding of lines 266–269 of `auto_strategy_optimizer.py`:

```
df["sell_signal"] = (
    (df["ma_short"].shift(1) > df["ma_long"].shift(1) & df["ma_short"] < df["ma_long"]) |
    (df["收盘"] < df["support"] * 0.985)
)
```

The left `|`-operand is the chained comparison
`maS.shift(1) > (maL.shift(1) & maS) < maL`; evaluating its middle operand
raises `TypeError` exactly as in `buySignalSeries`.  The rest is unreachable. -/
def sellSignalSeries (maS maL close sup : List ℚ) : Except PdError (List Bool) := do
  let b1 := shift1 maS
  let b2 ← seriesAndF (shift1 maL) (pser maS)
  let r1 ← seriesBool (seriesGt b1 b2)
  let r2 ← seriesBool (seriesLt b2 (pser maL))
  let stopLoss := seriesLt (pser close) (pser (smulSeries sup (985/1000)))
  pure (stopLoss.map fun b => (r1 && r2) || b)

/-- The metrics dictionary returned by `backtest_strategy`. -/
structure BacktestMetrics where
  annual_return : ℚ
  win_rate : ℚ
  max_drawdown : ℚ
  trade_count : ℕ
  deriving DecidableEq

/-- One recorded trade of the backtest ledger. -/
structure Trade where
  buy_date : ℕ
  sell_date : ℕ
  buy_price : ℚ
  sell_price : ℚ
  return_rate : ℚ
  deriving DecidableEq

/-- One row of the dataframe as seen by the trading loop of
`backtest_strategy` (lines 276–294): date, close, and the two signal columns. -/
structure TradeRow where
  date : ℕ
  close : ℚ
  buySignal : Bool
  sellSignal : Bool
  deriving DecidableEq

/-- The loop state of the trading loop: `position` (0 = flat / 1 = long),
`buy_price`, `buy_date`, and the ledger accumulated so far.  `buy_date` is
uninitialised in the source before the first buy; it is only ever read while in
a position, whose guard guarantees a preceding buy. -/
structure TradeState where
  pos : Bool
  buyPrice : ℚ
  buyDate : ℕ
  trades : List Trade
  deriving DecidableEq

/-- Formula `return_rate = (net_sell - net_buy) / net_buy` with
`net_buy = buy_price*(1+cost)` and `net_sell = sell_price*(1-cost)`
(lines 284–286). -/
def rrOf (cost bp sp : ℚ) : ℚ := (sp * (1 - cost) - bp * (1 + cost)) / (bp * (1 + cost))

/-- One iteration of the trading loop (lines 277–294): buy when flat and the
buy signal holds, else sell (recording the trade) when long and the sell signal
holds, else do nothing. -/
def tradeStep (bm sm cost : ℚ) (st : TradeState) (r : TradeRow) : TradeState :=
  if r.buySignal && !st.pos then
    { st with pos := true, buyPrice := r.close * (1 + bm), buyDate := r.date }
  else if r.sellSignal && st.pos then
    let sp := r.close * (1 - sm)
    { st with
      pos := false
      trades := st.trades ++ [{ buy_date := st.buyDate
                                sell_date := r.date
                                buy_price := st.buyPrice
                                sell_price := sp
                                return_rate := rrOf cost st.buyPrice sp }] }
  else st

/-- The full trading loop of `backtest_strategy`: fold `tradeStep` over the
rows, starting flat, and return the ledger. -/
def simulateTrades (bm sm cost : ℚ) (rows : List TradeRow) : List Trade :=
  (rows.foldl (tradeStep bm sm cost) { pos := false, buyPrice := 0, buyDate := 0, trades := [] }).trades

/-- pandas `cumprod` with running product seeded at `a`. -/
def cumAux (a : ℚ) : List ℚ → List ℚ
  | [] => []
  | x :: xs => (a * x) :: cumAux (a * x) xs

/-- pandas `cumprod`. -/
def cumprod (l : List ℚ) : List ℚ := cumAux 1 l

/-- pandas `cummax` with running maximum seeded at `m`. -/
def runningMaxAux (m : ℚ) : List ℚ → List ℚ
  | [] => []
  | x :: xs => max m x :: runningMaxAux (max m x) xs

/-- pandas `cummax`. -/
def runningMax : List ℚ → List ℚ
  | [] => []
  | x :: xs => x :: runningMaxAux x xs

/-- Lines 307–310: `cum_return = (1+r).cumprod()`, `cum_max = cummax`,
`drawdown = (cum_return - cum_max) / cum_max`, `max_drawdown = drawdown.min()`. -/
def maxDrawdown (rates : List ℚ) : ℚ :=
  let cum := cumprod (rates.map fun r => 1 + r)
  let cmax := runningMax cum
  listMin (List.zipWith (fun c m => (c - m) / m) cum cmax)

/-- Line 305: fraction of trades with positive return. -/
def winRate (rates : List ℚ) : ℚ :=
  ((rates.filter fun r => decide (0 < r)).length : ℚ) / (rates.length : ℚ)

/-- Lines 296–317: metrics from the ledger.  The annualisation
`(1+total)**(365/180) - 1` is a floating-point power with non-integer exponent;
its value affects none of the verified properties, so it is passed in as the
abstract function `ann` applied to the compounded total return. -/
def metricsFromTrades (ann : ℚ → ℚ) (trades : List Trade) : BacktestMetrics :=
  if trades.isEmpty then
    { annual_return := 0, win_rate := 0, max_drawdown := 0, trade_count := 0 }
  else
    let rates := trades.map Trade.return_rate
    { annual_return := ann ((rates.map fun r => 1 + r).prod - 1)
      win_rate := winRate rates
      max_drawdown := maxDrawdown rates
      trade_count := trades.length }

/-- The body of the `try` block of `backtest_strategy` (lines 238–317), after
the external data fetch: the 80 %-coverage length check (line 249: `len(df) <
180 * 0.8`; in float64 `180 * 0.8 == 144.0` exactly), the indicator columns,
the two vectorized signal expressions, the trading loop and the metrics.
`Except.error` models a raised exception. -/
def backtestCompute (ann : ℚ → ℚ) (params : StrategyParams) (df : List Bar) :
    Except PdError (Option BacktestMetrics) := do
  if (df.length : ℚ) < (historyDays : ℚ) * (8/10) then
    return none
  let closes := df.map Bar.close
  let maS := rollingMean params.ma_short closes
  let maL := rollingMean params.ma_long closes
  let sup := rollingMin params.support_resist_days (df.map Bar.low)
  let _res := rollingMax params.support_resist_days (df.map Bar.high)
  let bs ← buySignalSeries maS maL closes sup params.buy_margin
  let ss ← sellSignalSeries maS maL closes sup
  let rows := List.zipWith
    (fun (b : Bar) (p : Bool × Bool) =>
      { date := b.date, close := b.close, buySignal := p.1, sellSignal := p.2 : TradeRow })
    df (List.zip bs ss)
  let trades := simulateTrades params.buy_margin params.sell_margin transactionCost rows
  return some (metricsFromTrades ann trades)

/-- Embedding of `backtest_strategy(stock_code, params)` with the fetched history passed in:
the enclosing `try/except` turns any raised exception into a `None` return
(lines 318–320). -/
def backtest_strategy (ann : ℚ → ℚ) (df : List Bar) (params : StrategyParams) :
    Option BacktestMetrics :=
  match backtestCompute ann params df with
  | .ok r => r
  | .error _ => none

/-- The hard-coded initial `best_params` of `optimize_strategy_params`
(lines 333–339). -/
def defaultParams : StrategyParams :=
  { ma_short := 5
    ma_long := 20
    support_resist_days := 5
    buy_margin := 1/100
    sell_margin := 1/100 }

/-- The `itertools.product` enumeration over the five grid dimensions, in the insertion order
of `PARAM_SEARCH_CONFIG` (lines 327–328). -/
def paramGrid : List StrategyParams :=
  gridMaShort.flatMap fun s =>
    gridMaLong.flatMap fun l =>
      gridSupportDays.flatMap fun d =>
        gridBuyMargin.flatMap fun b =>
          gridSellMargin.map fun m =>
            { ma_short := s
              ma_long := l
              support_resist_days := d
              buy_margin := b
              sell_margin := m }

/-- Lines 349–352: the per-symbol results kept for one parameter combination —
a backtest result counts only if it is not `None` and has `trade_count >= 2`.
`bt` is the backtest oracle `(params, stock) ↦ result` (in the source, the call
`backtest_strategy(row["code"], params)` which fetches its own data). -/
def validMetrics (bt : StrategyParams → ℕ → Option BacktestMetrics)
    (stocks : List ℕ) (p : StrategyParams) : List BacktestMetrics :=
  stocks.filterMap fun c =>
    match bt p c with
    | some m => if 2 ≤ m.trade_count then some m else none
    | none => none

/-- Lines 357–367: the composite score
`0.6 * avg annual_return + 0.3 * avg win_rate + (-0.1) * avg max_drawdown`. -/
def comboScore (ms : List BacktestMetrics) : ℚ :=
  mean (ms.map BacktestMetrics.annual_return) * (6/10) +
    mean (ms.map BacktestMetrics.win_rate) * (3/10) +
    mean (ms.map BacktestMetrics.max_drawdown) * (-(1/10))

/-- The optimizer's best-so-far state: `best_score` (where `none` models the
initial `-float("inf")`, below every finite score) and `best_params`. -/
structure OptState where
  best_score : Option ℚ
  best_params : StrategyParams
  deriving DecidableEq

/-- Comparison `score > best_score` with `best_score = -inf` represented by `none`. -/
def beats : Option ℚ → ℚ → Bool
  | none, _ => true
  | some b, s => decide (b < s)

/-- One iteration of the grid loop (lines 345–381): collect the valid
per-symbol results, skip the combination when fewer than 2 symbols are valid,
otherwise update the best combination on a strictly higher composite score. -/
def optStep (bt : StrategyParams → ℕ → Option BacktestMetrics) (stocks : List ℕ)
    (st : OptState) (p : StrategyParams) : OptState :=
  let ms := validMetrics bt stocks p
  if ms.length < 2 then st
  else if beats st.best_score (comboScore ms) then
    { best_score := some (comboScore ms), best_params := p }
  else st

/-- Embedding of `optimize_strategy_params(top5_stocks)`: cross-validate on the first three
symbols (`top5_stocks.head(3)`, line 343), fold the grid loop over the full
Cartesian product, and return the best parameters (default when no combination
ever validates). -/
def optimize_strategy_params (bt : StrategyParams → ℕ → Option BacktestMetrics)
    (stocks : List ℕ) : StrategyParams :=
  (paramGrid.foldl (optStep bt (stocks.take 3))
    { best_score := none, best_params := defaultParams }).best_params

/-- The input of `calculate_short_term_score`: the last (up to) 120 daily rows
after forward/backward fill — closes (`收盘`), volumes (`成交量`) and, when
the `换手率` column exists and is not all-NaN, the turnover rates. -/
structure ScoreData where
  closes : List ℚ
  volumes : List ℚ
  turnover : Option (List ℚ)

/-- pandas `diff()` without its leading NaN: `delta_i = close_i - close_(i-1)`. -/
def priceDeltas (closes : List ℚ) : List ℚ :=
  List.zipWith (fun a b => a - b) closes.tail closes

/-- Series `delta.where(delta > 0, 0)` (line 146): the positive deltas, everything
else (including the leading NaN of `diff()`, which compares false) as 0. -/
def gainsOf : List ℚ → List ℚ
  | [] => []
  | c :: cs => 0 :: (priceDeltas (c :: cs)).map fun d => max d 0

/-- Series `(-delta).where(delta < 0, 0)` (line 147). -/
def lossesOf : List ℚ → List ℚ
  | [] => []
  | c :: cs => 0 :: (priceDeltas (c :: cs)).map fun d => max (-d) 0

/-- Trailing `rolling(14, min_periods=1).mean()` of the gains, at the last bar. -/
def avgGain (closes : List ℚ) : ℚ := mean (lastN 14 (gainsOf closes))

/-- Trailing `rolling(14, min_periods=1).mean()` of the losses, at the last bar. -/
def avgLoss (closes : List ℚ) : ℚ := mean (lastN 14 (lossesOf closes))

/-- Line 148: `rs = gain / loss if loss > 0 else 0`. -/
def rsOf (closes : List ℚ) : ℚ :=
  if 0 < avgLoss closes then avgGain closes / avgLoss closes else 0

/-- Line 149: `rsi14 = 100 - (100 / (1 + rs)) if rs >= 0 else 0`. -/
def rsi14Of (closes : List ℚ) : ℚ :=
  if 0 ≤ rsOf closes then 100 - 100 / (1 + rsOf closes) else 0

/-- Clamp `min(max(v, lo), hi)` used by every sub-score. -/
def clampQ (lo hi v : ℚ) : ℚ := min (max v lo) hi

/-- Cell `df.iloc[-1]["收盘"]`. -/
def lastClose (closes : List ℚ) : ℚ := closes.getD (closes.length - 1) 0

/-- Factor 1 (lines 118–123): the 5-day return, scaled by 150 and clamped to
[0, 30].  Division by zero (a zero close 6 bars ago) follows the rational
convention `x/0 = 0`; the float code would produce ±inf there, which the same
clamp also maps into [0, 30]. -/
def returnScoreOf (closes : List ℚ) : ℚ :=
  let r :=
    if 6 ≤ closes.length then
      (lastClose closes - closes.getD (closes.length - 6) 0) /
        closes.getD (closes.length - 6) 0
    else 0
  clampQ 0 30 (r * 150)

/-- Factor 2 (lines 125–129): ratio of 5-day to 20-day mean volume (0 when the
denominator is not positive), shifted and clamped to [0, 20]. -/
def volumeScoreOf (volumes : List ℚ) : ℚ :=
  let v5 := mean (lastN 5 volumes)
  let v20 := mean (lastN 20 volumes)
  let vr := if 0 < v20 then v5 / v20 else 0
  clampQ 0 20 ((vr - 1/2) * 20)

/-- Factor 3 (lines 131–142): 20 points for a strict bullish alignment
`ma5 > ma10 > ma20 > ma60 > 0`, else `(ma5-ma20)/ma20*200` clamped to [0, 15].
Division by a zero `ma20` follows `x/0 = 0`; in float it gives ±inf or NaN,
and in every case the clamped value stays within [0, 15]. -/
def maScoreOf (closes : List ℚ) : ℚ :=
  let m5 := mean (lastN 5 closes)
  let m10 := mean (lastN 10 closes)
  let m20 := mean (lastN 20 closes)
  let m60 := mean (lastN 60 closes)
  if m10 < m5 ∧ m20 < m10 ∧ m60 < m20 ∧ 0 < m60 then 20
  else clampQ 0 15 ((m5 - m20) / m20 * 200)

/-- Factor 4 (lines 151–156): the RSI tier score, 15 / 10 / 3 points. -/
def rsiScoreOf (closes : List ℚ) : ℚ :=
  let rsi := rsi14Of closes
  if 50 ≤ rsi ∧ rsi ≤ 70 then 15
  else if (40 ≤ rsi ∧ rsi < 50) ∨ (70 < rsi ∧ rsi ≤ 80) then 10
  else 3

/-- Factor 5 (lines 158–165): turnover stability clamped to [0, 1], times 15;
a fixed 8 points when the turnover column is absent or all NaN.  Division by a
zero 20-day mean turnover again follows `x/0 = 0` (float: ±inf or NaN), with
the clamp keeping every non-NaN outcome inside [0, 15]. -/
def turnoverScoreOf : Option (List ℚ) → ℚ
  | some ts =>
    let t5 := mean (lastN 5 ts)
    let t20 := mean (lastN 20 ts)
    clampQ 0 1 (1 - |t5 - t20| / t20) * 15
  | none => 8

/-- Rounding `round(x, 2)` (line 179).  Python rounds floats half to even; any rounding
to a multiple of 1/100 that is monotone and fixes integers is interchangeable
for the properties proved below, so Mathlib's `round` is used. -/
def round2 (q : ℚ) : ℚ := ((round (q * 100) : ℤ) : ℚ) / 100

/-- Embedding of `calculate_short_term_score` (lines 101–182) on the fetched and filled
data: 0 when fewer than 60 rows are available, else the weighted sum of the
five clamped sub-scores (weights 0.3 / 0.2 / 0.2 / 0.15 / 0.15), rounded to
two decimals. -/
def calculate_short_term_score (sd : ScoreData) : ℚ :=
  if sd.closes.length < 60 then 0
  else
    round2 (returnScoreOf sd.closes * (3/10) +
      volumeScoreOf sd.volumes * (2/10) +
      maScoreOf sd.closes * (2/10) +
      rsiScoreOf sd.closes * (15/100) +
      turnoverScoreOf sd.turnover * (15/100))

/-- The primary selection filter of `select_top5_stocks` (line 198):
`短线评分 >= 30`. -/
def passesTier1 (score : ℚ) : Bool := decide (30 ≤ score)

/-- The first selection tier applied to a list of computed scores. -/
def tier1Candidates (scores : List ℚ) : List ℚ := scores.filter passesTier1

/-- The bar data `generate_trading_signals` sees for one symbol: the last (up
to) 30 daily rows after fill — closes, lows and highs. -/
structure SignalData where
  closes : List ℚ
  lows : List ℚ
  highs : List ℚ

/-- Cell `column.iloc[-1]`. -/
def lastVal (l : List ℚ) : ℚ := l.getD (l.length - 1) 0

/-- Cell `column.iloc[-2]` when the frame has at least two rows, else
`column.iloc[-1]` (line 428). -/
def prevVal (l : List ℚ) : ℚ := if 2 ≤ l.length then l.getD (l.length - 2) 0 else lastVal l

/-- The `ma_short` column of `generate_trading_signals` (line 422). -/
def sigMaS (d : SignalData) (p : StrategyParams) : List ℚ := rollingMean p.ma_short d.closes

/-- The `ma_long` column (line 423). -/
def sigMaL (d : SignalData) (p : StrategyParams) : List ℚ := rollingMean p.ma_long d.closes

/-- The `support` column (line 424). -/
def sigSupport (d : SignalData) (p : StrategyParams) : List ℚ :=
  rollingMin p.support_resist_days d.lows

/-- The `resistance` column (line 425). -/
def sigResist (d : SignalData) (p : StrategyParams) : List ℚ :=
  rollingMax p.support_resist_days d.highs

/-- Condition `buy_signal` of the live generator (lines 431–437): golden cross, close at
most `support*(1+buy_margin)`, close above `support*0.95`, both moving
averages positive — scalar `and`s of scalar comparisons, in source order. -/
def buyCond (d : SignalData) (p : StrategyParams) : Prop :=
  lastVal (sigMaL d p) < lastVal (sigMaS d p) ∧
    prevVal (sigMaS d p) ≤ prevVal (sigMaL d p) ∧
    lastVal d.closes ≤ lastVal (sigSupport d p) * (1 + p.buy_margin) ∧
    lastVal (sigSupport d p) * (95/100) < lastVal d.closes ∧
    0 < lastVal (sigMaS d p) ∧ 0 < lastVal (sigMaL d p)

/-- Condition `sell_signal` of the live generator (lines 438–442): dead cross and close
below `support*0.985`. -/
def sellCond (d : SignalData) (p : StrategyParams) : Prop :=
  lastVal (sigMaS d p) < lastVal (sigMaL d p) ∧
    prevVal (sigMaL d p) ≤ prevVal (sigMaS d p) ∧
    lastVal d.closes < lastVal (sigSupport d p) * (985/1000)

/-- Condition `hold_signal` (lines 443–446): short MA above long MA and neither buy nor
sell. -/
def holdCond (d : SignalData) (p : StrategyParams) : Prop :=
  lastVal (sigMaL d p) < lastVal (sigMaS d p) ∧ ¬buyCond d p ∧ ¬sellCond d p

instance (d : SignalData) (p : StrategyParams) : Decidable (buyCond d p) := by
  unfold buyCond; infer_instance

instance (d : SignalData) (p : StrategyParams) : Decidable (sellCond d p) := by
  unfold sellCond; infer_instance

instance (d : SignalData) (p : StrategyParams) : Decidable (holdCond d p) := by
  unfold holdCond; infer_instance

/-- The four emitted signals 买入 / 卖出 / 持有 / 观望. -/
inductive TradeSignal
  | buy
  | sell
  | hold
  | watch
  deriving DecidableEq

/-- The `if buy_signal: ... elif sell_signal: ... elif hold_signal: ... else:`
chain of `generate_trading_signals` (lines 448–467): exactly one signal is
assigned, with BUY before SELL before HOLD before the WATCH fallback. -/
def classifySignal (d : SignalData) (p : StrategyParams) : TradeSignal :=
  if buyCond d p then .buy
  else if sellCond d p then .sell
  else if holdCond d p then .hold
  else .watch

def bar0 : Bar := { date := 0, close := 10, low := 9, high := 11 }

def btStub : StrategyParams → ℕ → Option BacktestMetrics := fun _ _ => some ⟨0, 0, 0, 0⟩

def sigData0 : SignalData :=
  { closes := List.replicate 20 1
    lows := List.replicate 20 1
    highs := List.replicate 20 1 }

/-- Provenance of one recorded trade with respect to the processed rows: the
entry was taken at a buy-signal bar at `close*(1+bm)`, the exit at a
sell-signal bar at `close*(1-sm)`, and the return rate is the cost-adjusted
ratio of the two. -/
def goodTrade (bm sm cost : ℚ) (all : List TradeRow) (t : Trade) : Prop :=
  (∃ rb ∈ all, rb.buySignal = true ∧ t.buy_date = rb.date ∧
      t.buy_price = rb.close * (1 + bm)) ∧
    (∃ rx ∈ all, rx.sellSignal = true ∧ t.sell_date = rx.date ∧
      t.sell_price = rx.close * (1 - sm)) ∧
    t.return_rate = rrOf cost t.buy_price t.sell_price

/-- Invariant of the trading loop: every ledger entry has good provenance, and
while LONG the pending entry price/date come from a buy-signal bar. -/
def goodState (bm sm cost : ℚ) (all : List TradeRow) (st : TradeState) : Prop :=
  (∀ t ∈ st.trades, goodTrade bm sm cost all t) ∧
    (st.pos = true → ∃ rb ∈ all, rb.buySignal = true ∧ st.buyDate = rb.date ∧
      st.buyPrice = rb.close * (1 + bm))

/-- All dates of the ledger in recording order: entry then exit per trade. -/
def ledgerDates (ts : List Trade) : List ℕ := ts.flatMap fun t => [t.buy_date, t.sell_date]

/-- The dates committed by a loop state: ledger dates followed by the pending
entry date while LONG. -/
def stateDates (st : TradeState) : List ℕ :=
  ledgerDates st.trades ++ (if st.pos then [st.buyDate] else [])

/-- What one grid combination contributes: its composite score when at least
two symbols validate, nothing otherwise (`continue`). -/
def comboResult (bt : StrategyParams → ℕ → Option BacktestMetrics) (stocks : List ℕ)
    (p : StrategyParams) : Option (StrategyParams × ℚ) :=
  if 2 ≤ (validMetrics bt stocks p).length then
    some (p, comboScore (validMetrics bt stocks p))
  else none

/-- The non-skipped grid combinations with their composite scores, in grid
order (cross-validated on the first three symbols, as in the source). -/
def scoredCombos (bt : StrategyParams → ℕ → Option BacktestMetrics) (stocks : List ℕ) :
    List (StrategyParams × ℚ) :=
  paramGrid.filterMap (comboResult bt (stocks.take 3))

/-- The pure best-so-far update on (params, score) pairs: replace on a
strictly higher score (`>` in the source), keep the incumbent on a tie. -/
def updBest (acc : Option (StrategyParams × ℚ)) (x : StrategyParams × ℚ) :
    Option (StrategyParams × ℚ) :=
  match acc with
  | none => some x
  | some y => if y.2 < x.2 then some x else acc

/-- The optimizer state corresponding to an abstract best-so-far pair. -/
def stateOfAcc (acc : Option (StrategyParams × ℚ)) (p0 : StrategyParams) : OptState :=
  match acc with
  | none => { best_score := none, best_params := p0 }
  | some y => { best_score := some y.2, best_params := y.1 }

/-- The default pair used only as a `getD` fallback below. -/
def dPair : StrategyParams × ℚ := (defaultParams, 0)

lemma backtestCompute_short (ann : ℚ → ℚ) (params : StrategyParams) (df : List Bar)
    (h : (df.length : ℚ) < (historyDays : ℚ) * (8/10)) :
    backtestCompute ann params df = Except.ok none := by
  simp only [backtestCompute, if_pos h]
  rfl

lemma backtestCompute_raises (ann : ℚ → ℚ) (params : StrategyParams) (df : List Bar)
    (h : ¬ (df.length : ℚ) < (historyDays : ℚ) * (8/10)) :
    backtestCompute ann params df = Except.error PdError.typeError := by
  unfold backtestCompute
  rw [if_neg h]
  rfl

/-- Every input whatsoever makes `backtest_strategy` return `None`: short
series through the coverage check, all others through the raised `TypeError`. -/
lemma backtest_strategy_none (ann : ℚ → ℚ) (df : List Bar) (params : StrategyParams) :
    backtest_strategy ann df params = none := by
  by_cases h : (df.length : ℚ) < (historyDays : ℚ) * (8/10)
  · simp [backtest_strategy, backtestCompute_short ann params df h]
  · simp [backtest_strategy, backtestCompute_raises ann params df h]

lemma foldl_fixed {α β : Type} (f : β → α → β) (l : List α) (st : β)
    (h : ∀ st a, f st a = st) : l.foldl f st = st := by
  induction l generalizing st with
  | nil => rfl
  | cons x xs ih => rw [List.foldl_cons, h, ih]

lemma optimize_of_all_none (bt : StrategyParams → ℕ → Option BacktestMetrics)
    (stocks : List ℕ) (h : ∀ p c, bt p c = none) :
    optimize_strategy_params bt stocks = defaultParams := by
  unfold optimize_strategy_params
  rw [foldl_fixed]
  intro st p
  have hv : validMetrics bt (stocks.take 3) p = [] := by
    simp [validMetrics, h]
  simp [optStep, hv]

/-- C1: the vectorized `buy_signal`/`sell_signal` expressions of
`backtest_strategy` combine comparison chains with `&`, which binds tighter
than the comparisons and is undefined between float64 series; every price
series that passes the 80 %-coverage check therefore raises, the handler
returns `None`, no parameter combination ever contributes valid metrics, and
`optimize_strategy_params` returns its hard-coded default parameter set
{MA_SHORT 5, MA_LONG 20, SUPPORT_RESIST_DAYS 5, BUY_MARGIN 0.01,
SELL_MARGIN 0.01} for every input. -/
theorem c1_precedence_bug_forces_defaults :
    (∀ (ann : ℚ → ℚ) (params : StrategyParams) (df : List Bar), 144 ≤ df.length →
        backtestCompute ann params df = Except.error PdError.typeError ∧
          backtest_strategy ann df params = none) ∧
      (∀ (ann : ℚ → ℚ) (data : ℕ → List Bar) (stocks : List ℕ),
        optimize_strategy_params (fun p c => backtest_strategy ann (data c) p) stocks
          = defaultParams) ∧
      defaultParams = ⟨5, 20, 5, 1/100, 1/100⟩ := by
  refine ⟨?_, ?_, rfl⟩
  · intro ann params df h
    have hq : ¬ (df.length : ℚ) < (historyDays : ℚ) * (8/10) := by
      push_neg
      have h144 : (144 : ℚ) ≤ (df.length : ℚ) := by exact_mod_cast h
      calc (historyDays : ℚ) * (8/10) = 144 := by norm_num [historyDays]
        _ ≤ (df.length : ℚ) := h144
    exact ⟨backtestCompute_raises ann params df hq, backtest_strategy_none ann df params⟩
  · intro ann data stocks
    exact optimize_of_all_none _ stocks (fun p c => backtest_strategy_none ann (data c) p)

theorem c1_precedence_bug_forces_defaults_witness :
    backtestCompute (fun t => t) defaultParams (List.replicate 144 bar0)
        = Except.error PdError.typeError ∧
      optimize_strategy_params
          (fun p c => backtest_strategy (fun t => t) (List.replicate 144 bar0) p)
          [1, 2, 3] = defaultParams :=
  ⟨(c1_precedence_bug_forces_defaults.1 (fun t => t) defaultParams
      (List.replicate 144 bar0) (by simp)).1,
    c1_precedence_bug_forces_defaults.2.1 (fun t => t)
      (fun _ => List.replicate 144 bar0) [1, 2, 3]⟩

/-- C9: a price series shorter than the coverage threshold (80 % of the
180-day lookback, i.e. 144 rows) makes the backtest return the no-result value
`None` instead of raising — the guarded branch completes normally with
`Except.ok none` — so the optimizer can skip the symbol gracefully. -/
theorem c9_short_series_returns_none (ann : ℚ → ℚ) (params : StrategyParams)
    (df : List Bar) (h : df.length < 144) :
    backtestCompute ann params df = Except.ok none ∧
      backtest_strategy ann df params = none := by
  have hq : (df.length : ℚ) < (historyDays : ℚ) * (8/10) := by
    have h144 : (df.length : ℚ) < 144 := by exact_mod_cast h
    calc (df.length : ℚ) < 144 := h144
      _ = (historyDays : ℚ) * (8/10) := by norm_num [historyDays]
  exact ⟨backtestCompute_short ann params df hq,
    by simp [backtest_strategy, backtestCompute_short ann params df hq]⟩

theorem c9_short_series_returns_none_witness :
    backtestCompute (fun t => t) defaultParams [] = Except.ok none ∧
      backtest_strategy (fun t => t) [] defaultParams = none :=
  c9_short_series_returns_none (fun t => t) defaultParams [] (by decide)

/-- C10: in the scorer's RSI(14), a zero trailing average loss makes the ratio
RS equal 0 and the resulting RSI value `100 - 100/(1+RS)` exactly 0. -/
theorem c10_rsi_zero_when_no_losses (closes : List ℚ) (h : avgLoss closes = 0) :
    rsOf closes = 0 ∧ rsi14Of closes = 0 := by
  have hrs : rsOf closes = 0 := by simp [rsOf, h]
  refine ⟨hrs, ?_⟩
  norm_num [rsi14Of, hrs]

lemma avgLoss_const : avgLoss [10, 10, 10] = 0 := by
  norm_num [avgLoss, mean, lastN, lossesOf, priceDeltas]

theorem c10_rsi_zero_when_no_losses_witness :
    avgLoss [10, 10, 10] = 0 ∧ rsOf [10, 10, 10] = 0 ∧ rsi14Of [10, 10, 10] = 0 :=
  ⟨avgLoss_const, c10_rsi_zero_when_no_losses [10, 10, 10] avgLoss_const⟩

/-- C8: a backtest run with zero trades returns the metrics
{annual_return 0, win_rate 0, max_drawdown 0, trade_count 0} rather than
failing, and any per-symbol result whose `trade_count` is below 2 — which
includes every zero-trade run — is dropped from the optimizer's
per-combination aggregation instead of being scored as worst. -/
theorem c8_zero_trades_excluded :
    (∀ ann : ℚ → ℚ, metricsFromTrades ann [] = ⟨0, 0, 0, 0⟩) ∧
      ∀ (bt : StrategyParams → ℕ → Option BacktestMetrics) (p : StrategyParams)
        (c : ℕ) (m : BacktestMetrics) (pre post : List ℕ),
        bt p c = some m → m.trade_count < 2 →
        validMetrics bt (pre ++ c :: post) p = validMetrics bt (pre ++ post) p := by
  constructor
  · intro ann
    simp [metricsFromTrades]
  · intro bt p c m pre post hbt hlt
    simp [validMetrics, List.filterMap_append, hbt, Nat.not_le.mpr hlt]

theorem c8_zero_trades_excluded_witness :
    metricsFromTrades (fun t => t) [] = ⟨0, 0, 0, 0⟩ ∧
      validMetrics btStub ([1] ++ 7 :: [2]) defaultParams
        = validMetrics btStub ([1] ++ [2]) defaultParams :=
  ⟨c8_zero_trades_excluded.1 (fun t => t),
    c8_zero_trades_excluded.2 btStub defaultParams 7 ⟨0, 0, 0, 0⟩ [1] [2] rfl (by decide)⟩

lemma clampQ_le_right (lo hi v : ℚ) : clampQ lo hi v ≤ hi := min_le_right _ _

lemma returnScoreOf_le (closes : List ℚ) : returnScoreOf closes ≤ 30 := by
  unfold returnScoreOf
  exact clampQ_le_right _ _ _

lemma volumeScoreOf_le (volumes : List ℚ) : volumeScoreOf volumes ≤ 20 := by
  unfold volumeScoreOf
  exact clampQ_le_right _ _ _

lemma maScoreOf_le (closes : List ℚ) : maScoreOf closes ≤ 20 := by
  simp only [maScoreOf]
  split
  · norm_num
  · exact le_trans (clampQ_le_right _ _ _) (by norm_num)

lemma rsiScoreOf_le (closes : List ℚ) : rsiScoreOf closes ≤ 15 := by
  simp only [rsiScoreOf]
  split
  · norm_num
  · split <;> norm_num

lemma turnoverScoreOf_le (t : Option (List ℚ)) : turnoverScoreOf t ≤ 15 := by
  cases t with
  | none => norm_num [turnoverScoreOf]
  | some ts =>
    unfold turnoverScoreOf
    exact le_trans
      (mul_le_mul_of_nonneg_right (clampQ_le_right _ _ _) (by norm_num))
      (by norm_num)

lemma weighted_score_le (sd : ScoreData) :
    returnScoreOf sd.closes * (3/10) + volumeScoreOf sd.volumes * (2/10) +
      maScoreOf sd.closes * (2/10) + rsiScoreOf sd.closes * (15/100) +
      turnoverScoreOf sd.turnover * (15/100) ≤ 43/2 := by
  have h1 := returnScoreOf_le sd.closes
  have h2 := volumeScoreOf_le sd.volumes
  have h3 := maScoreOf_le sd.closes
  have h4 := rsiScoreOf_le sd.closes
  have h5 := turnoverScoreOf_le sd.turnover
  linarith

lemma round2_le_of_le (q : ℚ) (h : q ≤ 43/2) : round2 q ≤ 43/2 := by
  unfold round2
  have h2 : round ((43/2 : ℚ) * 100) = 2150 := by
    have he : ((43:ℚ)/2) * 100 = ((2150:ℤ) : ℚ) := by norm_num
    rw [he, round_intCast]
  have h1 : round (q * 100) ≤ (2150 : ℤ) := by
    rw [← h2, round_eq, round_eq]
    exact Int.floor_mono (by linarith)
  have h3 : ((round (q * 100) : ℤ) : ℚ) ≤ 2150 := by exact_mod_cast h1
  linarith

/-- C6: every score returned by `calculate_short_term_score` is at most 21.5:
each of the five sub-scores is clamped to its full point range (0–30, 0–20,
0–20, 3–15, 0–15) and then multiplied by its fractional weight a second time
before summation; hence the score is always strictly below the primary
threshold 30 of `select_top5_stocks` and the first selection tier is never
satisfiable. -/
theorem c6_score_below_threshold :
    (∀ sd : ScoreData,
        calculate_short_term_score sd ≤ 43/2 ∧
          calculate_short_term_score sd < 30 ∧
          passesTier1 (calculate_short_term_score sd) = false) ∧
      ∀ sds : List ScoreData,
        tier1Candidates (sds.map calculate_short_term_score) = [] := by
  have key : ∀ sd : ScoreData, calculate_short_term_score sd ≤ 43/2 := by
    intro sd
    unfold calculate_short_term_score
    split
    · norm_num
    · exact round2_le_of_le _ (weighted_score_le sd)
  have lt30 : ∀ sd : ScoreData, calculate_short_term_score sd < 30 :=
    fun sd => lt_of_le_of_lt (key sd) (by norm_num)
  refine ⟨fun sd => ⟨key sd, lt30 sd, decide_eq_false (not_le.mpr (lt30 sd))⟩, ?_⟩
  intro sds
  apply List.filter_eq_nil_iff.mpr
  intro s hs
  obtain ⟨sd, _, rfl⟩ := List.mem_map.mp hs
  simp only [passesTier1, decide_eq_true_eq]
  exact not_le.mpr (lt30 sd)

lemma classify_buy_iff (d : SignalData) (p : StrategyParams) :
    classifySignal d p = .buy ↔ buyCond d p := by
  by_cases hb : buyCond d p <;> by_cases hs : sellCond d p <;>
    by_cases hh : holdCond d p <;> simp [classifySignal, hb, hs, hh]

/-- C2: for valid StrategyParams (ma_short < ma_long) and a bar series of
length at least ma_long, exactly one of BUY/SELL/HOLD/WATCH is emitted, and
the precedence on overlap is BUY first, then SELL, then HOLD, with WATCH as
the default fallback. -/
theorem c2_exactly_one_signal (d : SignalData) (p : StrategyParams)
    (hp : validParams p) (hlen : p.ma_long ≤ d.closes.length) :
    (classifySignal d p = .buy ↔ buyCond d p) ∧
      (classifySignal d p = .sell ↔ ¬buyCond d p ∧ sellCond d p) ∧
      (classifySignal d p = .hold ↔
        ¬buyCond d p ∧ ¬sellCond d p ∧
          lastVal (sigMaL d p) < lastVal (sigMaS d p)) ∧
      (classifySignal d p = .watch ↔
        ¬buyCond d p ∧ ¬sellCond d p ∧
          ¬lastVal (sigMaL d p) < lastVal (sigMaS d p)) := by
  by_cases hb : buyCond d p <;> by_cases hs : sellCond d p <;>
    by_cases hm : lastVal (sigMaL d p) < lastVal (sigMaS d p) <;>
      simp [classifySignal, holdCond, hb, hs, hm]

theorem c2_exactly_one_signal_witness :
    (classifySignal sigData0 defaultParams = .buy ↔ buyCond sigData0 defaultParams) ∧
      (classifySignal sigData0 defaultParams = .sell ↔
        ¬buyCond sigData0 defaultParams ∧ sellCond sigData0 defaultParams) ∧
      (classifySignal sigData0 defaultParams = .hold ↔
        ¬buyCond sigData0 defaultParams ∧ ¬sellCond sigData0 defaultParams ∧
          lastVal (sigMaL sigData0 defaultParams) < lastVal (sigMaS sigData0 defaultParams)) ∧
      (classifySignal sigData0 defaultParams = .watch ↔
        ¬buyCond sigData0 defaultParams ∧ ¬sellCond sigData0 defaultParams ∧
          ¬lastVal (sigMaL sigData0 defaultParams) < lastVal (sigMaS sigData0 defaultParams)) :=
  c2_exactly_one_signal sigData0 defaultParams
    (by norm_num [validParams, defaultParams]) (by simp [sigData0, defaultParams])

lemma mean_pos (l : List ℚ) (hne : l ≠ []) (h : ∀ x ∈ l, 0 < x) : 0 < mean l := by
  unfold mean
  apply div_pos (List.sum_pos l h hne)
  exact_mod_cast List.length_pos.mpr hne

lemma lastVal_rollingMean (w : ℕ) (l : List ℚ) (hl : 0 < l.length) :
    lastVal (rollingMean w l) = mean (l.drop (l.length - w)) := by
  unfold lastVal rollingMean
  rw [List.length_map, List.length_range]
  rw [List.getD_eq_getElem _ _ (by simp; omega)]
  simp only [List.getElem_map, List.getElem_range]
  unfold window
  have h1 : l.length - 1 + 1 = l.length := by omega
  rw [h1, List.take_length]

lemma lastVal_rollingMean_pos (w : ℕ) (l : List ℚ) (hw : 0 < w) (hl : 0 < l.length)
    (hpos : ∀ c ∈ l, 0 < c) : 0 < lastVal (rollingMean w l) := by
  rw [lastVal_rollingMean w l hl]
  apply mean_pos
  · have hlen : (l.drop (l.length - w)).length = l.length - (l.length - w) :=
      List.length_drop _ _
    intro hnil
    rw [hnil] at hlen
    simp at hlen
    omega
  · intro x hx
    exact hpos x (List.drop_subset _ _ hx)

/-- C3: at the latest bar the live signal generator classifies a symbol BUY
iff a golden cross occurred (ma_short(prev) ≤ ma_long(prev) and
ma_short(curr) > ma_long(curr)) and the current close lies in the half-open
interval (support·0.95, support·(1+buy_margin)] — for every bar series of
length at least 2 with positive closes and every valid StrategyParams (the
source's extra `ma > 0` checks are implied by price positivity). -/
theorem c3_buy_iff_golden_cross_near_support (d : SignalData) (p : StrategyParams)
    (hp : validParams p) (hlen : 2 ≤ d.closes.length)
    (hpos : ∀ c ∈ d.closes, 0 < c) :
    classifySignal d p = .buy ↔
      (prevVal (sigMaS d p) ≤ prevVal (sigMaL d p) ∧
        lastVal (sigMaL d p) < lastVal (sigMaS d p) ∧
        lastVal (sigSupport d p) * (95/100) < lastVal d.closes ∧
        lastVal d.closes ≤ lastVal (sigSupport d p) * (1 + p.buy_margin)) := by
  have hS : 0 < lastVal (sigMaS d p) :=
    lastVal_rollingMean_pos p.ma_short d.closes hp.1 (by omega) hpos
  have hL : 0 < lastVal (sigMaL d p) := by
    have hml : 0 < p.ma_long := by
      have h1 := hp.1
      have h2 := hp.2.1
      omega
    exact lastVal_rollingMean_pos p.ma_long d.closes hml (by omega) hpos
  rw [classify_buy_iff]
  unfold buyCond
  constructor
  · rintro ⟨h1, h2, h3, h4, _, _⟩
    exact ⟨h2, h1, h4, h3⟩
  · rintro ⟨h2, h1, h4, h3⟩
    exact ⟨h1, h2, h3, h4, hS, hL⟩

theorem c3_buy_iff_golden_cross_near_support_witness :
    classifySignal sigData0 defaultParams = .buy ↔
      (prevVal (sigMaS sigData0 defaultParams) ≤ prevVal (sigMaL sigData0 defaultParams) ∧
        lastVal (sigMaL sigData0 defaultParams) < lastVal (sigMaS sigData0 defaultParams) ∧
        lastVal (sigSupport sigData0 defaultParams) * (95/100) < lastVal sigData0.closes ∧
        lastVal sigData0.closes ≤
          lastVal (sigSupport sigData0 defaultParams) * (1 + defaultParams.buy_margin)) :=
  c3_buy_iff_golden_cross_near_support sigData0 defaultParams
    (by norm_num [validParams, defaultParams]) (by simp [sigData0])
    (by intro c hc; simp [sigData0] at hc; norm_num [hc])

lemma cumAux_length (l : List ℚ) : ∀ a : ℚ, (cumAux a l).length = l.length := by
  induction l with
  | nil => intro a; rfl
  | cons x xs ih => intro a; simp [cumAux, ih]

lemma runningMaxAux_length (l : List ℚ) : ∀ m : ℚ, (runningMaxAux m l).length = l.length := by
  induction l with
  | nil => intro m; rfl
  | cons x xs ih => intro m; simp [runningMaxAux, ih]

lemma runningMax_length (l : List ℚ) : (runningMax l).length = l.length := by
  cases l with
  | nil => rfl
  | cons x xs => simp [runningMax, runningMaxAux_length]

lemma cumAux_pos (l : List ℚ) : ∀ a : ℚ, 0 < a → (∀ x ∈ l, 0 < x) →
    ∀ c ∈ cumAux a l, 0 < c := by
  induction l with
  | nil => intro a _ _ c hc; simp [cumAux] at hc
  | cons x xs ih =>
    intro a ha hpos c hc
    rw [cumAux] at hc
    have hx : 0 < x := hpos x (List.mem_cons_self _ _)
    rcases List.mem_cons.mp hc with h | h
    · subst h; exact mul_pos ha hx
    · exact ih (a * x) (mul_pos ha hx) (fun y hy => hpos y (List.mem_cons_of_mem _ hy)) c h

lemma runningMaxAux_spec (l : List ℚ) : ∀ m : ℚ,
    List.Forall₂ (fun c mx => c ≤ mx ∧ m ≤ mx) l (runningMaxAux m l) := by
  induction l with
  | nil => intro m; simp [runningMaxAux]
  | cons x xs ih =>
    intro m
    rw [runningMaxAux]
    exact List.Forall₂.cons ⟨le_max_right m x, le_max_left m x⟩
      ((ih (max m x)).imp fun _ _ h => ⟨h.1, (le_max_left m x).trans h.2⟩)

lemma runningMax_spec (l : List ℚ) (hpos : ∀ x ∈ l, 0 < x) :
    List.Forall₂ (fun c mx => c ≤ mx ∧ 0 < mx) l (runningMax l) := by
  cases l with
  | nil => simp [runningMax]
  | cons x xs =>
    rw [runningMax]
    have hx : 0 < x := hpos x (List.mem_cons_self _ _)
    exact List.Forall₂.cons ⟨le_refl x, hx⟩
      ((runningMaxAux_spec xs x).imp fun _ _ h => ⟨h.1, lt_of_lt_of_le hx h.2⟩)

lemma zipWith_dd_nonpos (l lm : List ℚ)
    (h : List.Forall₂ (fun c mx => c ≤ mx ∧ 0 < mx) l lm) :
    ∀ y ∈ List.zipWith (fun c m => (c - m) / m) l lm, y ≤ 0 := by
  induction h with
  | nil => intro y hy; simp at hy
  | @cons a b l₁ l₂ hab _ ih =>
    intro y hy
    rw [List.zipWith_cons_cons] at hy
    rcases List.mem_cons.mp hy with hh | hh
    · subst hh
      exact div_nonpos_iff.mpr (Or.inr ⟨by linarith [hab.1], le_of_lt hab.2⟩)
    · exact ih y hh

lemma foldl_min_le_init (xs : List ℚ) : ∀ a : ℚ, xs.foldl min a ≤ a := by
  induction xs with
  | nil => intro a; simp
  | cons x xs ih => intro a; exact le_trans (ih (min a x)) (min_le_left a x)

lemma listMin_nonpos (l : List ℚ) (hne : l ≠ []) (h : ∀ x ∈ l, x ≤ 0) :
    listMin l ≤ 0 := by
  cases l with
  | nil => exact absurd rfl hne
  | cons x xs =>
    rw [listMin]
    exact le_trans (foldl_min_le_init xs x) (h x (List.mem_cons_self _ _))

lemma foldl_min_const (xs : List ℚ) : ∀ a : ℚ, (∀ x ∈ xs, x = a) → xs.foldl min a = a := by
  induction xs with
  | nil => intro a _; rfl
  | cons x xs ih =>
    intro a h
    have hx : x = a := h x (List.mem_cons_self _ _)
    rw [List.foldl_cons, hx, min_self]
    exact ih a fun y hy => h y (List.mem_cons_of_mem _ hy)

lemma listMin_map_zero (l : List ℚ) (hne : l ≠ []) :
    listMin (l.map fun _ => (0:ℚ)) = 0 := by
  cases l with
  | nil => exact absurd rfl hne
  | cons x xs =>
    rw [List.map_cons, listMin]
    apply foldl_min_const
    intro y hy
    obtain ⟨a, _, ha⟩ := List.mem_map.mp hy
    exact ha.symm

lemma cumAux_chain (l : List ℚ) : ∀ a : ℚ, 0 < a → (∀ x ∈ l, 1 ≤ x) →
    (cumAux a l).Chain' (· ≤ ·) := by
  induction l with
  | nil => intro a _ _; simp [cumAux]
  | cons x xs ih =>
    intro a ha h1
    rw [cumAux]
    have hx1 : 1 ≤ x := h1 x (List.mem_cons_self _ _)
    have hax : 0 < a * x := mul_pos ha (lt_of_lt_of_le one_pos hx1)
    apply List.chain'_cons'.mpr
    refine ⟨?_, ih (a * x) hax fun y hy => h1 y (List.mem_cons_of_mem _ hy)⟩
    intro b hb
    cases xs with
    | nil => simp [cumAux] at hb
    | cons y ys =>
      rw [cumAux] at hb
      simp only [List.head?_cons, Option.mem_def, Option.some.injEq] at hb
      subst hb
      exact le_mul_of_one_le_right (le_of_lt hax) (h1 y (List.mem_cons_of_mem _ (List.mem_cons_self _ _)))

lemma runningMaxAux_eq_self (l : List ℚ) : ∀ m : ℚ,
    List.Chain' (· ≤ ·) (m :: l) → runningMaxAux m l = l := by
  induction l with
  | nil => intro m _; rfl
  | cons x xs ih =>
    intro m hch
    have hmx : m ≤ x := (List.chain'_cons.mp hch).1
    rw [runningMaxAux, max_eq_right hmx, ih x (List.chain'_cons.mp hch).2]

lemma runningMax_eq_self (l : List ℚ) (h : l.Chain' (· ≤ ·)) : runningMax l = l := by
  cases l with
  | nil => rfl
  | cons x xs => rw [runningMax, runningMaxAux_eq_self xs x h]

/-- C7: for every non-empty trade ledger whose return rates all exceed −1, the
backtest's max_drawdown — the minimum over trades of the drawdown
`(cum_return - running_max)/running_max` — is at most 0, and it is exactly 0
for an all-winning ledger, whose cumulative return curve is monotonically
increasing. -/
theorem c7_max_drawdown_nonpos (rates : List ℚ) (hne : rates ≠ [])
    (hgt : ∀ r ∈ rates, -1 < r) :
    maxDrawdown rates ≤ 0 ∧ ((∀ r ∈ rates, 0 < r) → maxDrawdown rates = 0) := by
  have hmaplen : (rates.map fun r => 1 + r).length = rates.length := List.length_map _ _
  have hfpos : ∀ x ∈ rates.map fun r => 1 + r, 0 < x := by
    intro x hx
    obtain ⟨r, hr, rfl⟩ := List.mem_map.mp hx
    linarith [hgt r hr]
  have hcumpos : ∀ c ∈ cumprod (rates.map fun r => 1 + r), 0 < c :=
    cumAux_pos _ 1 one_pos hfpos
  constructor
  · simp only [maxDrawdown]
    apply listMin_nonpos
    · intro hnil
      have hlen := congrArg List.length hnil
      simp only [List.length_zipWith, cumprod, cumAux_length, runningMax_length,
        hmaplen, min_self, List.length_nil] at hlen
      exact hne (List.eq_nil_of_length_eq_zero hlen)
    · exact zipWith_dd_nonpos _ _ (runningMax_spec _ hcumpos)
  · intro hpos
    simp only [maxDrawdown]
    have h1le : ∀ x ∈ rates.map fun r => 1 + r, 1 ≤ x := by
      intro x hx
      obtain ⟨r, hr, rfl⟩ := List.mem_map.mp hx
      linarith [hpos r hr]
    have hch : (cumprod (rates.map fun r => 1 + r)).Chain' (· ≤ ·) :=
      cumAux_chain _ 1 one_pos h1le
    rw [runningMax_eq_self _ hch, List.zipWith_same]
    simp only [sub_self, zero_div]
    apply listMin_map_zero
    intro hnil
    have hlen := congrArg List.length hnil
    simp only [cumprod, cumAux_length, hmaplen, List.length_nil] at hlen
    exact hne (List.eq_nil_of_length_eq_zero hlen)

theorem c7_max_drawdown_nonpos_witness :
    maxDrawdown [1/10] ≤ 0 ∧ maxDrawdown [1/10] = 0 := by
  have h := c7_max_drawdown_nonpos [1/10] (by simp)
    (by intro r hr; simp at hr; norm_num [hr])
  exact ⟨h.1, h.2 (by intro r hr; simp at hr; norm_num [hr])⟩

lemma band_true (a b : Bool) (h : (a && b) = true) : a = true ∧ b = true := by
  simpa using h

lemma goodState_step (bm sm cost : ℚ) (all : List TradeRow) (st : TradeState)
    (r : TradeRow) (hr : r ∈ all) (h : goodState bm sm cost all st) :
    goodState bm sm cost all (tradeStep bm sm cost st r) := by
  unfold tradeStep
  by_cases hbuy : (r.buySignal && !st.pos) = true
  · rw [if_pos hbuy]
    exact ⟨h.1, fun _ => ⟨r, hr, (band_true _ _ hbuy).1, rfl, rfl⟩⟩
  · rw [if_neg hbuy]
    by_cases hsell : (r.sellSignal && st.pos) = true
    · rw [if_pos hsell]
      have hpos : st.pos = true := (band_true _ _ hsell).2
      obtain ⟨rb, hrb, hsig, hdate, hprice⟩ := h.2 hpos
      refine ⟨?_, fun hcontra => by simp at hcontra⟩
      intro t ht
      rcases List.mem_append.mp ht with hmem | hmem
      · exact h.1 t hmem
      · have heq := List.mem_singleton.mp hmem
        subst heq
        exact ⟨⟨rb, hrb, hsig, hdate, hprice⟩,
          ⟨r, hr, (band_true _ _ hsell).1, rfl, rfl⟩, rfl⟩
    · rw [if_neg hsell]
      exact h

lemma goodState_fold (bm sm cost : ℚ) (all : List TradeRow) :
    ∀ (rows : List TradeRow) (st : TradeState), (∀ r ∈ rows, r ∈ all) →
      goodState bm sm cost all st →
      goodState bm sm cost all (rows.foldl (tradeStep bm sm cost) st) := by
  intro rows
  induction rows with
  | nil => intro st _ h; exact h
  | cons r rest ih =>
    intro st hsub h
    rw [List.foldl_cons]
    exact ih (tradeStep bm sm cost st r)
      (fun x hx => hsub x (List.mem_cons_of_mem _ hx))
      (goodState_step bm sm cost all st r (hsub r (List.mem_cons_self _ _)) h)

lemma chain_append_singleton (l : List ℕ) (x : ℕ) (hc : l.Chain' (· < ·))
    (hx : ∀ y ∈ l, y < x) : (l ++ [x]).Chain' (· < ·) := by
  apply List.Chain'.append hc (List.chain'_singleton x)
  intro a ha b hb
  simp only [List.head?_cons, Option.mem_def, Option.some.injEq] at hb
  subst hb
  exact hx a (List.mem_of_mem_getLast? ha)

lemma stateDates_step (bm sm cost : ℚ) (st : TradeState) (r : TradeRow) :
    stateDates (tradeStep bm sm cost st r) = stateDates st ∨
      stateDates (tradeStep bm sm cost st r) = stateDates st ++ [r.date] := by
  unfold tradeStep
  by_cases hbuy : (r.buySignal && !st.pos) = true
  · rw [if_pos hbuy]
    right
    have hpos : st.pos = false := by
      have h2 := (band_true _ _ hbuy).2
      simpa using h2
    simp [stateDates, hpos]
  · rw [if_neg hbuy]
    by_cases hsell : (r.sellSignal && st.pos) = true
    · rw [if_pos hsell]
      right
      have hpos : st.pos = true := (band_true _ _ hsell).2
      simp [stateDates, hpos, ledgerDates]
    · rw [if_neg hsell]
      left
      rfl

lemma chron_fold (bm sm cost : ℚ) :
    ∀ (rows : List TradeRow) (st : TradeState),
      (rows.map TradeRow.date).Chain' (· < ·) →
      (stateDates st).Chain' (· < ·) →
      (∀ d ∈ stateDates st, ∀ r ∈ rows, d < r.date) →
      (stateDates (rows.foldl (tradeStep bm sm cost) st)).Chain' (· < ·) := by
  intro rows
  induction rows with
  | nil => intro st _ hc _; exact hc
  | cons r rest ih =>
    intro st hrows hc hbound
    rw [List.foldl_cons]
    have hrows' : (r.date :: rest.map TradeRow.date).Chain' (· < ·) := by
      simpa using hrows
    have hrrest : ∀ x ∈ rest, r.date < x.date := by
      have hp := List.chain'_iff_pairwise.mp hrows'
      intro x hx
      exact (List.pairwise_cons.mp hp).1 x.date (List.mem_map_of_mem _ hx)
    have hrest_chain : (rest.map TradeRow.date).Chain' (· < ·) :=
      (List.chain'_cons'.mp hrows').2
    have hdlt : ∀ d ∈ stateDates st, d < r.date :=
      fun d hd => hbound d hd r (List.mem_cons_self _ _)
    rcases stateDates_step bm sm cost st r with hsame | happ
    · exact ih (tradeStep bm sm cost st r) hrest_chain (hsame ▸ hc)
        (by rw [hsame]; intro d hd x hx; exact hbound d hd x (List.mem_cons_of_mem _ hx))
    · apply ih (tradeStep bm sm cost st r) hrest_chain
      · rw [happ]
        exact chain_append_singleton _ _ hc hdlt
      · rw [happ]
        intro d hd x hx
        rcases List.mem_append.mp hd with hmem | hmem
        · exact lt_trans (hbound d hmem r (List.mem_cons_self _ _)) (hrrest x hx)
        · rw [List.mem_singleton.mp hmem]
          exact hrrest x hx

/-- C4: whenever the backtest trading loop, while LONG, meets a sell signal it
appends exactly one trade — exit price `close*(1-sell_margin)`, return rate
`(exit*(1-cost) - entry*(1+cost)) / (entry*(1+cost))` — and the state returns
to FLAT; every ledger entry's entry price is the entry bar's
`close*(1+buy_margin)` taken at a buy-signal bar, its exit price the exit
bar's `close*(1-sell_margin)` taken at a sell-signal bar; and for strictly
increasing bar dates the ledger is chronological (entry and exit dates in
strictly increasing order along the ledger). -/
theorem c4_trade_recording (bm sm cost : ℚ) (rows : List TradeRow)
    (st : TradeState) (r : TradeRow) :
    (st.pos = true → r.sellSignal = true →
        tradeStep bm sm cost st r =
          { pos := false
            buyPrice := st.buyPrice
            buyDate := st.buyDate
            trades := st.trades ++ [{ buy_date := st.buyDate
                                      sell_date := r.date
                                      buy_price := st.buyPrice
                                      sell_price := r.close * (1 - sm)
                                      return_rate := rrOf cost st.buyPrice
                                        (r.close * (1 - sm)) }] }) ∧
      (∀ t ∈ simulateTrades bm sm cost rows, goodTrade bm sm cost rows t) ∧
      ((rows.map TradeRow.date).Chain' (· < ·) →
        (ledgerDates (simulateTrades bm sm cost rows)).Chain' (· < ·)) := by
  refine ⟨?_, ?_, ?_⟩
  · intro hpos hsell
    unfold tradeStep
    rw [if_neg (by simp [hpos]), if_pos (by simp [hpos, hsell])]
  · intro t ht
    have hfold := goodState_fold bm sm cost rows rows
      { pos := false, buyPrice := 0, buyDate := 0, trades := [] }
      (fun x hx => hx) ⟨by simp, by simp⟩
    exact hfold.1 t ht
  · intro hrows
    have hfold := chron_fold bm sm cost rows
      { pos := false, buyPrice := 0, buyDate := 0, trades := [] }
      hrows (by simp [stateDates, ledgerDates]) (by intro d hd; simp [stateDates, ledgerDates] at hd)
    unfold stateDates at hfold
    exact (List.chain'_append.mp hfold).1

theorem c4_trade_recording_witness :
    tradeStep (1/100) (1/100) (15/10000) ⟨true, 5, 0, []⟩ ⟨3, 8, false, true⟩ =
        { pos := false
          buyPrice := 5
          buyDate := 0
          trades := [{ buy_date := 0
                       sell_date := 3
                       buy_price := 5
                       sell_price := 8 * (1 - 1/100)
                       return_rate := rrOf (15/10000) 5 (8 * (1 - 1/100)) }] } ∧
      (ledgerDates (simulateTrades (1/100) (1/100) (15/10000)
        [⟨0, 10, true, false⟩, ⟨1, 20, false, true⟩])).Chain' (· < ·) :=
  ⟨(c4_trade_recording (1/100) (1/100) (15/10000) [] ⟨true, 5, 0, []⟩
      ⟨3, 8, false, true⟩).1 rfl rfl,
    (c4_trade_recording (1/100) (1/100) (15/10000)
        [⟨0, 10, true, false⟩, ⟨1, 20, false, true⟩] ⟨false, 0, 0, []⟩
        ⟨0, 0, false, false⟩).2.2 (by simp [List.chain'_cons])⟩

lemma filterMap_const_none {α β : Type} (l : List α) :
    l.filterMap (fun _ => (none : Option β)) = [] := by
  induction l with
  | nil => rfl
  | cons x xs ih => simp [List.filterMap_cons, ih]

lemma optFold_bridge (bt : StrategyParams → ℕ → Option BacktestMetrics)
    (tstocks : List ℕ) :
    ∀ (grid : List StrategyParams) (acc : Option (StrategyParams × ℚ)) (p0 : StrategyParams),
      grid.foldl (optStep bt tstocks) (stateOfAcc acc p0) =
        stateOfAcc ((grid.filterMap (comboResult bt tstocks)).foldl updBest acc) p0 := by
  intro grid
  induction grid with
  | nil => intro acc p0; rfl
  | cons p rest ih =>
    intro acc p0
    rw [List.foldl_cons, List.filterMap_cons]
    by_cases hv : 2 ≤ (validMetrics bt tstocks p).length
    · have hcr : comboResult bt tstocks p =
          some (p, comboScore (validMetrics bt tstocks p)) := by
        simp [comboResult, hv]
      have hstep : optStep bt tstocks (stateOfAcc acc p0) p =
          stateOfAcc (updBest acc (p, comboScore (validMetrics bt tstocks p))) p0 := by
        unfold optStep stateOfAcc updBest beats
        cases acc with
        | none => simp [Nat.not_lt.mpr hv]
        | some y =>
          by_cases hlt : y.2 < comboScore (validMetrics bt tstocks p)
          · simp [Nat.not_lt.mpr hv, hlt]
          · simp [Nat.not_lt.mpr hv, hlt]
      rw [hcr, hstep, List.foldl_cons]
      exact ih _ p0
    · have hcr : comboResult bt tstocks p = none := by simp [comboResult, hv]
      have hstep : optStep bt tstocks (stateOfAcc acc p0) p = stateOfAcc acc p0 := by
        unfold optStep
        rw [if_pos (Nat.not_le.mp hv)]
      rw [hcr, hstep]
      exact ih acc p0

lemma foldl_updBest_first_max :
    ∀ l : List (StrategyParams × ℚ), l ≠ [] →
      ∃ i, i < l.length ∧
        l.foldl updBest none = some (l.getD i dPair) ∧
        (∀ j, j < l.length → (l.getD j dPair).2 ≤ (l.getD i dPair).2) ∧
        (∀ j, j < i → (l.getD j dPair).2 < (l.getD i dPair).2) := by
  intro l
  induction l using List.reverseRecOn with
  | nil => intro h; exact absurd rfl h
  | append_singleton l₂ x ih =>
    intro _
    rw [List.foldl_append, List.foldl_cons, List.foldl_nil]
    rcases eq_or_ne l₂ [] with hl₂ | hl₂
    · subst hl₂
      refine ⟨0, by simp, by simp [updBest], ?_, ?_⟩
      · intro j hj
        simp at hj
        simp [hj]
      · intro j hj
        omega
    · obtain ⟨i, hi, heq, hmax, hstrict⟩ := ih hl₂
      rw [heq]
      have hx : (l₂ ++ [x]).getD l₂.length dPair = x := by
        rw [List.getD_append_right l₂ [x] dPair l₂.length (le_refl _)]
        simp
      have hleft : ∀ j, j < l₂.length → (l₂ ++ [x]).getD j dPair = l₂.getD j dPair :=
        fun j hj => List.getD_append l₂ [x] dPair j hj
      by_cases hlt : (l₂.getD i dPair).2 < x.2
      · refine ⟨l₂.length, by simp, ?_, ?_, ?_⟩
        · rw [hx]
          simp only [updBest]
          rw [if_pos hlt]
        · intro j hj
          rw [hx]
          rcases Nat.lt_or_ge j l₂.length with hjl | hjr
          · rw [hleft j hjl]
            exact le_of_lt (lt_of_le_of_lt (hmax j hjl) hlt)
          · have hjeq : j = l₂.length := by
              simp [List.length_append] at hj
              omega
            rw [hjeq, hx]
        · intro j hj
          rw [hx, hleft j hj]
          exact lt_of_le_of_lt (hmax j hj) hlt
      · refine ⟨i, by simp [List.length_append]; omega, ?_, ?_, ?_⟩
        · rw [hleft i hi]
          simp only [updBest]
          rw [if_neg hlt]
        · intro j hj
          rw [hleft i hi]
          rcases Nat.lt_or_ge j l₂.length with hjl | hjr
          · rw [hleft j hjl]
            exact hmax j hjl
          · have hjeq : j = l₂.length := by
              simp [List.length_append] at hj
              omega
            rw [hjeq, hx]
            exact not_lt.mp hlt
        · intro j hj
          rw [hleft i hi, hleft j (lt_trans hj hi)]
          exact hstrict j hj

/-- C5: the parameter optimizer skips any grid combination for which fewer
than two symbols produce a valid backtest result; among the non-skipped
combinations it selects the strictly highest composite score, first-seen
winning ties since the comparison is strict `>`; and every grid combination is
visited — the iterated grid is the full Cartesian product (243 combinations,
each value tuple present).  With no valid combination at all the hard-coded
default is returned. -/
theorem c5_grid_selection (bt : StrategyParams → ℕ → Option BacktestMetrics)
    (stocks : List ℕ) :
    (paramGrid.length = 243 ∧
        ∀ s ∈ gridMaShort, ∀ l ∈ gridMaLong, ∀ d ∈ gridSupportDays,
          ∀ b ∈ gridBuyMargin, ∀ m ∈ gridSellMargin,
            (⟨s, l, d, b, m⟩ : StrategyParams) ∈ paramGrid) ∧
      (scoredCombos bt stocks = [] →
        optimize_strategy_params bt stocks = defaultParams) ∧
      (scoredCombos bt stocks ≠ [] →
        ∃ i, i < (scoredCombos bt stocks).length ∧
          optimize_strategy_params bt stocks = ((scoredCombos bt stocks).getD i dPair).1 ∧
          (∀ j, j < (scoredCombos bt stocks).length →
            ((scoredCombos bt stocks).getD j dPair).2 ≤
              ((scoredCombos bt stocks).getD i dPair).2) ∧
          (∀ j, j < i →
            ((scoredCombos bt stocks).getD j dPair).2 <
              ((scoredCombos bt stocks).getD i dPair).2)) := by
  have hbridge : optimize_strategy_params bt stocks =
      (stateOfAcc ((scoredCombos bt stocks).foldl updBest none) defaultParams).best_params := by
    unfold optimize_strategy_params scoredCombos
    rw [show ({ best_score := none, best_params := defaultParams } : OptState) =
      stateOfAcc none defaultParams from rfl]
    rw [optFold_bridge bt (stocks.take 3) paramGrid none defaultParams]
  refine ⟨⟨by rfl, ?_⟩, ?_, ?_⟩
  · intro s hs l hl d hd b hb m hm
    unfold paramGrid
    simp only [List.mem_flatMap, List.mem_map]
    exact ⟨s, hs, l, hl, d, hd, b, hb, m, hm, rfl⟩
  · intro hnil
    rw [hbridge, hnil]
    rfl
  · intro hne
    obtain ⟨i, hi, heq, hmax, hstrict⟩ := foldl_updBest_first_max (scoredCombos bt stocks) hne
    exact ⟨i, hi, by rw [hbridge, heq]; rfl, hmax, hstrict⟩

theorem c5_grid_selection_witness :
    (⟨4, 18, 4, 8/1000, 8/1000⟩ : StrategyParams) ∈ paramGrid ∧
      optimize_strategy_params (fun _ _ => none) [] = defaultParams :=
  ⟨(c5_grid_selection (fun _ _ => none) []).1.2 4 (by simp [gridMaShort])
      18 (by simp [gridMaLong]) 4 (by simp [gridSupportDays])
      (8/1000) (by simp [gridBuyMargin]) (8/1000) (by simp [gridSellMargin]),
    (c5_grid_selection (fun _ _ => none) []).2.1 (by
      have hall : ∀ p, comboResult (fun _ _ => none) ([] : List ℕ) p = none := by
        intro p
        simp [comboResult, validMetrics]
      have hfun : comboResult (fun _ _ => (none : Option BacktestMetrics)) ([] : List ℕ) =
          fun _ => none := funext hall
      simp only [scoredCombos, List.take_nil]
      rw [hfun]
      exact filterMap_const_none _)⟩
